import Mathlib

/-!
Verification of the pysvcmetrics statsd client: a shallow embedding of
statsdclient.py and metrics.py.

Modelling conventions:
- Python insertion-ordered dicts are association lists (`Dict`); the dict
  assignment `data[k] = v` is `dictInsert`, which replaces the value in
  place when the key is present and appends otherwise.
- `random.random()` is modelled by a `RandSrc`: a stream of rational values
  together with a cursor; each call consumes one value.  `time.time()` is
  modelled the same way by `TimeSrc`.
- Python floats are modelled as rationals; `str(x)` of a number is
  `ratRepr` / `toString` of the rational or integer.
- UDP transmission is modelled by returning the list of datagrams the call
  sends, in order; the UTF-8 payload of a datagram is modelled as the
  `String` itself.
- A Python exception (TypeError from concatenating a string with a
  non-string) is modelled with `Except`.
-/

/-- Python runtime errors that the modelled code can raise. -/
inductive PyError
  | typeError
  deriving DecidableEq, Repr

/-- An insertion-ordered mapping from statsd keys to wire-encoded values,
modelling a Python dict of strings. -/
abbrev Dict := List (String × String)

/-- The keys of a dict, in insertion order. -/
def dictKeys (d : Dict) : List String := d.map Prod.fst

/-- Model of Python dict assignment `d[k] = v`: if `k` is already a key its
value is replaced in place (the entry keeps its position), otherwise the
pair is appended at the end. -/
def dictInsert (d : Dict) (k v : String) : Dict :=
  if k ∈ dictKeys d then d.map (fun kv => if kv.1 = k then (k, v) else kv)
  else d ++ [(k, v)]

/-- Lookup `d[k]`: the value stored at the first (hence only, for a real
dict) entry whose key is `k`. -/
def dictLookup : Dict → String → Option String
  | [], _ => none
  | kv :: rest, k => if kv.1 = k then some kv.2 else dictLookup rest k

/-- One UDP datagram: destination address and UTF-8 payload. -/
structure Datagram where
  addr : String × Nat
  payload : String
  deriving DecidableEq, Repr

/-- Model of `random.random()`: a stream of draws and a cursor; each call
to the source consumes exactly one value.  Real draws lie in `[0,1)`. -/
structure RandSrc where
  vals : Nat → ℚ
  idx : Nat

/-- `random.random()`: read the current draw and advance the cursor. -/
def randNext (r : RandSrc) : ℚ × RandSrc :=
  (r.vals r.idx, ⟨r.vals, r.idx + 1⟩)

/-- Model of `time.time()`: a stream of wall-clock readings (in seconds)
and a cursor. -/
structure TimeSrc where
  vals : Nat → ℚ
  idx : Nat

/-- `time.time()`: read the current clock value and advance the cursor. -/
def timeNext (t : TimeSrc) : ℚ × TimeSrc :=
  (t.vals t.idx, ⟨t.vals, t.idx + 1⟩)

/-- `str(rate)` for a sampling rate modelled as a rational: the canonical
textual form of the number. -/
def ratRepr (q : ℚ) : String :=
  if q.den = 1 then toString q.num
  else toString q.num ++ "/" ++ toString q.den

/-- A Python value passed as the `value` argument of a metric call. -/
inductive PyVal
  | int (n : ℤ)
  | str (s : String)
  | rat (q : ℚ)
  deriving DecidableEq, Repr

/-- `str(value)`, as used by the format string of `format`. -/
def PyVal.pyStr : PyVal → String
  | .int n => toString n
  | .str s => s
  | .rat q => ratRepr q

/-- The `keys` argument of `format`: Python is duck-typed here, so the
argument can be a single string, a list, a tuple, or any other object
(e.g. a set); only `list` and `tuple` pass the `isinstance` check in
`format`. -/
inductive PyKeys
  | str (s : String)
  | list (ks : List String)
  | tuple (ks : List String)
  | setv (ks : List String)
  deriving DecidableEq, Repr

/-- `StatsdClient.__init__` state: `self.addr` and `self.prefix`. -/
structure StatsdClient where
  addr : String × Nat
  pfx : String
  deriving DecidableEq, Repr

/-- `StatsdClient.__init__(host, port, prefix)`:
`self.addr = (host, port)`; `self.prefix = prefix + "." if prefix else ""`. -/
def StatsdClient.init (host : String) (port : Nat) (pfx : String) : StatsdClient :=
  { addr := (host, port), pfx := if pfx ≠ "" then pfx ++ "." else "" }

def StatsdClient.SC_TIMING : String := "ms"
def StatsdClient.SC_COUNT : String := "c"
def StatsdClient.SC_GAUGE : String := "g"
def StatsdClient.SC_SET : String := "s"

/-- `StatsdClient.format(keys, value, _type, prefix)`:
`value = "{0}|{1}".format(value, _type)`; anything that is not a list or a
tuple is wrapped as `[keys]`; then `data[prefix + key] = value` for each
key.  For a key that is not a string, `prefix + key` raises TypeError, so
a set (or any other non-list, non-tuple iterable) passed as `keys` is not
iterated: the whole object becomes the single "key" and the concatenation
fails. -/
def StatsdClient.format (keys : PyKeys) (value : PyVal) (ty : String)
    (pfx : String := "") : Except PyError Dict :=
  let value' := PyVal.pyStr value ++ "|" ++ ty
  match keys with
  | .list ks => .ok (ks.foldl (fun data key => dictInsert data (pfx ++ key) value') [])
  | .tuple ks => .ok (ks.foldl (fun data key => dictInsert data (pfx ++ key) value') [])
  | .str s => .ok ([s].foldl (fun data key => dictInsert data (pfx ++ key) value') [])
  | .setv _ => .error .typeError

/-- `StatsdClient.sample(data, sample_rate)`.  In the source the branch
`elif sample_rate < 1` always fires when the first test fails, `random()`
is then called exactly once, and the trailing `return {}` catches the
failed draw. -/
def StatsdClient.sample (data : Dict) (rate : ℚ) (r : RandSrc) : Dict × RandSrc :=
  if rate ≥ 1 then (data, r)
  else
    let (draw, r') := randNext r
    if draw ≤ rate then
      (data.foldl
        (fun sampled kv => dictInsert sampled kv.1 (kv.2 ++ "|@" ++ ratRepr rate)) [],
       r')
    else ([], r')

/-- `StatsdClient.send(_dict, addr)`: one datagram per dict item, in
insertion order, payload `":".join(item)` = `key ++ ":" ++ value`. -/
def StatsdClient.send (d : Dict) (addr : String × Nat) : List Datagram :=
  d.map (fun kv => { addr := addr, payload := kv.1 ++ ":" ++ kv.2 })

/-- `StatsdClient.update_stats`: format, sample, send. -/
def StatsdClient.update_stats (c : StatsdClient) (stats : PyKeys) (value : PyVal)
    (ty : String) (rate : ℚ) (r : RandSrc) :
    Except PyError (List Datagram × RandSrc) :=
  match StatsdClient.format stats value ty c.pfx with
  | .error e => .error e
  | .ok d =>
    let (sampled, r') := StatsdClient.sample d rate r
    .ok (StatsdClient.send sampled c.addr, r')

/-- `StatsdClient.timing(stats, value)`. -/
def StatsdClient.timing (c : StatsdClient) (stats : PyKeys) (value : PyVal)
    (r : RandSrc) : Except PyError (List Datagram × RandSrc) :=
  c.update_stats stats value StatsdClient.SC_TIMING 1 r

/-- `StatsdClient.gauge(stats, value)`. -/
def StatsdClient.gauge (c : StatsdClient) (stats : PyKeys) (value : PyVal)
    (r : RandSrc) : Except PyError (List Datagram × RandSrc) :=
  c.update_stats stats value StatsdClient.SC_GAUGE 1 r

/-- `StatsdClient.set(stats, value)`. -/
def StatsdClient.set (c : StatsdClient) (stats : PyKeys) (value : PyVal)
    (r : RandSrc) : Except PyError (List Datagram × RandSrc) :=
  c.update_stats stats value StatsdClient.SC_SET 1 r

/-- `StatsdClient.count(stats, value, sample_rate)`. -/
def StatsdClient.count (c : StatsdClient) (stats : PyKeys) (value : PyVal)
    (rate : ℚ) (r : RandSrc) : Except PyError (List Datagram × RandSrc) :=
  c.update_stats stats value StatsdClient.SC_COUNT rate r

/-- `StatsdClient.increment(stats, sample_rate)` =
`self.count(stats, 1, sample_rate)`. -/
def StatsdClient.increment (c : StatsdClient) (stats : PyKeys) (rate : ℚ)
    (r : RandSrc) : Except PyError (List Datagram × RandSrc) :=
  c.count stats (.int 1) rate r

/-- `StatsdClient.decrement(stats, sample_rate)` =
`self.count(stats, -1, sample_rate)`. -/
def StatsdClient.decrement (c : StatsdClient) (stats : PyKeys) (rate : ℚ)
    (r : RandSrc) : Except PyError (List Datagram × RandSrc) :=
  c.count stats (.int (-1)) rate r

/-- Module-level `timeit(func, *args, **kwargs)`: reads the clock, invokes
`func` once, reads the clock again and returns `(res, seconds)`.  `func`
is modelled as a state transformer that either returns a result and a new
state or raises; when it raises, the second clock read never happens and
the exception propagates. -/
def timeitFn {σ α : Type} (f : σ → Except PyError (α × σ)) (s : σ)
    (t : TimeSrc) : Except PyError ((α × ℚ) × σ × TimeSrc) :=
  let (start, t1) := timeNext t
  match f s with
  | .ok (a, s') =>
    let (stop, t2) := timeNext t1
    .ok ((a, stop - start), s', t2)
  | .error e => .error e

/-- `StatsdClient.timeit(metric, func, *args)`: `(res, seconds) =
timeit(func, ...)`; `self.timing(metric, seconds * 1000.0)`; `return res`. -/
def StatsdClient.timeit {σ α : Type} (c : StatsdClient) (metric : PyKeys)
    (f : σ → Except PyError (α × σ)) (s : σ) (t : TimeSrc) (r : RandSrc) :
    Except PyError (α × List Datagram × σ × TimeSrc × RandSrc) :=
  match timeitFn f s t with
  | .ok ((a, secs), s', t') =>
    match c.timing metric (.rat (secs * 1000)) r with
    | .ok (dgs, r') => .ok (a, dgs, s', t', r')
    | .error e => .error e
  | .error e => .error e

/-- The process-wide client of metrics.py: either the `NullClient` no-op
sink or a configured `StatsdClient`. -/
inductive MClient
  | null
  | statsd (c : StatsdClient)
  deriving DecidableEq, Repr

/-- metrics.py module state at import time: `_client = NullClient()`. -/
def metrics.initialClient : MClient := .null

/-- `metrics.resetclient()`: the client the module state is reset to. -/
def metrics.resetclient : MClient := .null

/-- `metrics.configure(host, port, prefix)`: the client the module state
is replaced with. -/
def metrics.configure (host : String) (port : Nat) (pfx : String) : MClient :=
  .statsd (StatsdClient.init host port pfx)

/-- `metrics.timing(metric, value)`: delegates to the current client;
`NullClient.timing` does nothing. -/
def metrics.timing (cl : MClient) (metric : PyKeys) (value : PyVal)
    (r : RandSrc) : Except PyError (List Datagram × RandSrc) :=
  match cl with
  | .null => .ok ([], r)
  | .statsd c => c.timing metric value r

/-- `metrics.gauge(metric, value)`. -/
def metrics.gauge (cl : MClient) (metric : PyKeys) (value : PyVal)
    (r : RandSrc) : Except PyError (List Datagram × RandSrc) :=
  match cl with
  | .null => .ok ([], r)
  | .statsd c => c.gauge metric value r

/-- `metrics.count(metric, value, sample_rate)`. -/
def metrics.count (cl : MClient) (metric : PyKeys) (value : PyVal) (rate : ℚ)
    (r : RandSrc) : Except PyError (List Datagram × RandSrc) :=
  match cl with
  | .null => .ok ([], r)
  | .statsd c => c.count metric value rate r

/-- `metrics.timeit(metric, func, *args)`: delegates to the current
client; `NullClient.timeit` just invokes `func` and returns its result,
touching neither the clock nor the random source and sending nothing. -/
def metrics.timeitF {σ α : Type} (cl : MClient) (metric : PyKeys)
    (f : σ → Except PyError (α × σ)) (s : σ) (t : TimeSrc) (r : RandSrc) :
    Except PyError (α × List Datagram × σ × TimeSrc × RandSrc) :=
  match cl with
  | .null =>
    match f s with
    | .ok (a, s') => .ok (a, [], s', t, r)
    | .error e => .error e
  | .statsd c => c.timeit metric f s t r

/-! Lemmas about the dict model. -/

@[simp] theorem dictKeys_nil : dictKeys [] = [] := rfl

@[simp] theorem dictKeys_cons (kv : String × String) (d : Dict) :
    dictKeys (kv :: d) = kv.1 :: dictKeys d := rfl

@[simp] theorem dictKeys_append (d1 d2 : Dict) :
    dictKeys (d1 ++ d2) = dictKeys d1 ++ dictKeys d2 :=
  List.map_append _ _ _

theorem dictKeys_update (d : Dict) (k v : String) :
    dictKeys (d.map (fun kv => if kv.1 = k then (k, v) else kv)) = dictKeys d := by
  induction d with
  | nil => rfl
  | cons kv d ih =>
    simp only [List.map_cons, dictKeys_cons, ih]
    congr 1
    split
    · rename_i h
      exact h.symm
    · rfl

theorem mem_dictKeys_dictInsert (d : Dict) (k v fk : String) :
    fk ∈ dictKeys (dictInsert d k v) ↔ fk ∈ dictKeys d ∨ fk = k := by
  unfold dictInsert
  split
  · rename_i h
    rw [dictKeys_update]
    constructor
    · exact Or.inl
    · rintro (hm | rfl)
      · exact hm
      · exact h
  · simp

theorem nodup_dictKeys_dictInsert (d : Dict) (k v : String)
    (h : (dictKeys d).Nodup) : (dictKeys (dictInsert d k v)).Nodup := by
  unfold dictInsert
  split
  · rwa [dictKeys_update]
  · rename_i hk
    simp only [dictKeys_append]
    rw [List.nodup_append]
    refine ⟨h, by simp, ?_⟩
    intro a ha hb
    simp [dictKeys] at hb
    subst hb
    exact hk ha

theorem dictInsert_values {P : String → Prop} (d : Dict) (k v : String)
    (hv : P v) (hd : ∀ kv ∈ d, P kv.2) : ∀ kv ∈ dictInsert d k v, P kv.2 := by
  unfold dictInsert
  split
  · intro kv hkv
    simp only [List.mem_map] at hkv
    obtain ⟨kv', hkv', rfl⟩ := hkv
    split
    · exact hv
    · exact hd kv' hkv'
  · intro kv hkv
    rcases List.mem_append.mp hkv with h | h
    · exact hd kv h
    · simp at h
      subst h
      exact hv

theorem dictInsert_of_not_mem (d : Dict) (k v : String) (h : k ∉ dictKeys d) :
    dictInsert d k v = d ++ [(k, v)] := by
  unfold dictInsert
  exact if_neg h

theorem dictLookup_eq_some (d : Dict) (fk v : String) (hmem : fk ∈ dictKeys d)
    (hv : ∀ kv ∈ d, kv.2 = v) : dictLookup d fk = some v := by
  induction d with
  | nil => simp [dictKeys] at hmem
  | cons kv d ih =>
    by_cases h : kv.1 = fk
    · rw [dictLookup, if_pos h, hv kv (List.mem_cons_self _ _)]
    · rw [dictLookup, if_neg h]
      apply ih
      · rcases List.mem_cons.mp hmem with heq | hm
        · exact absurd heq.symm h
        · exact hm
      · intro kv' h'
        exact hv kv' (List.mem_cons_of_mem _ h')

theorem formatFold_mem (pfx v : String) (ks : List String) (d : Dict) (fk : String) :
    fk ∈ dictKeys (ks.foldl (fun data key => dictInsert data (pfx ++ key) v) d) ↔
      fk ∈ dictKeys d ∨ ∃ k ∈ ks, pfx ++ k = fk := by
  induction ks generalizing d with
  | nil => simp
  | cons k ks ih =>
    simp only [List.foldl_cons, ih, mem_dictKeys_dictInsert, List.mem_cons]
    aesop

theorem formatFold_nodup (pfx v : String) (ks : List String) (d : Dict)
    (h : (dictKeys d).Nodup) :
    (dictKeys (ks.foldl (fun data key => dictInsert data (pfx ++ key) v) d)).Nodup := by
  induction ks generalizing d with
  | nil => exact h
  | cons k ks ih => exact ih _ (nodup_dictKeys_dictInsert _ _ _ h)

theorem formatFold_values (pfx v : String) (ks : List String) (d : Dict)
    (hd : ∀ kv ∈ d, kv.2 = v) :
    ∀ kv ∈ ks.foldl (fun data key => dictInsert data (pfx ++ key) v) d, kv.2 = v := by
  induction ks generalizing d with
  | nil => exact hd
  | cons k ks ih =>
    exact ih _ (dictInsert_values (P := fun x => x = v) _ _ _ rfl hd)

theorem foldl_dictInsert_map (f : String × String → String) (data acc : Dict)
    (h : (dictKeys (acc ++ data)).Nodup) :
    data.foldl (fun d kv => dictInsert d kv.1 (f kv)) acc
      = acc ++ data.map (fun kv => (kv.1, f kv)) := by
  induction data generalizing acc with
  | nil => simp
  | cons kv data ih =>
    have hk : kv.1 ∉ dictKeys acc := by
      intro hmem
      have hd := (List.nodup_append.mp (by simpa using h)).2.2
      exact hd hmem (List.mem_cons_self _ _)
    have h' : (dictKeys ((acc ++ [(kv.1, f kv)]) ++ data)).Nodup := by
      simpa [List.append_assoc] using h
    rw [List.foldl_cons, dictInsert_of_not_mem _ _ _ hk, ih _ h']
    simp

/-- The rational 1/2, given in lowest terms so that kernel evaluation does
not need gcd normalization; used as a concrete sampling rate and draw. -/
def qHalf : ℚ := ⟨1, 2, by decide, Nat.coprime_one_left 2⟩

/-- Claim C1: a client constructed with prefix "app" (any host and port)
joins the prefix to the key with a dot, and gauge("mem", 512) transmits
exactly one UDP datagram to the client's destination with payload
"app.mem:512|g", consuming no random draw. -/
theorem gauge_prefixed_end_to_end (host : String) (port : Nat) (r : RandSrc) :
    StatsdClient.gauge (StatsdClient.init host port "app") (.str "mem") (.int 512) r =
      .ok ([{ addr := (host, port), payload := "app.mem:512|g" }], r) := rfl

/-- Claim C2: for every sequence of keys (list or tuple), value, type and
prefix, format returns a mapping with exactly one entry per distinct
fully-qualified key, in which every prefixed input key is bound to
"{value}|{type}" (so on a collision after prefixing the surviving entry is
the later key's, whose value is that same string). -/
theorem format_list_spec (ks : List String) (v : PyVal) (ty pfx : String)
    (d : Dict) (hfmt : StatsdClient.format (.list ks) v ty pfx = .ok d) :
    StatsdClient.format (.tuple ks) v ty pfx = .ok d ∧
    (dictKeys d).Nodup ∧
    (∀ fk, fk ∈ dictKeys d ↔ ∃ k ∈ ks, pfx ++ k = fk) ∧
    (∀ kv ∈ d, kv.2 = PyVal.pyStr v ++ "|" ++ ty) ∧
    (∀ k ∈ ks, dictLookup d (pfx ++ k) = some (PyVal.pyStr v ++ "|" ++ ty)) := by
  have hd : d = ks.foldl
      (fun data key => dictInsert data (pfx ++ key) (PyVal.pyStr v ++ "|" ++ ty)) [] := by
    simpa [StatsdClient.format] using hfmt.symm
  subst hd
  refine ⟨rfl, formatFold_nodup _ _ _ _ (by simp), ?_, ?_, ?_⟩
  · intro fk
    simpa using formatFold_mem _ _ ks [] fk
  · exact formatFold_values _ _ _ _ (by simp)
  · intro k hk
    apply dictLookup_eq_some
    · rw [formatFold_mem]
      exact Or.inr ⟨k, hk, rfl⟩
    · exact formatFold_values _ _ _ _ (by simp)

/-- Witness for C2 at a concrete input. -/
theorem format_list_spec_witness :
    StatsdClient.format (.tuple ["a", "b"]) (.int 2) "T" "p." =
      .ok [("p.a", "2|T"), ("p.b", "2|T")] ∧
    (dictKeys [("p.a", "2|T"), ("p.b", "2|T")]).Nodup ∧
    (∀ fk, fk ∈ dictKeys [("p.a", "2|T"), ("p.b", "2|T")] ↔
      ∃ k ∈ ["a", "b"], "p." ++ k = fk) ∧
    (∀ kv ∈ [("p.a", "2|T"), ("p.b", "2|T")],
      kv.2 = PyVal.pyStr (.int 2) ++ "|" ++ "T") ∧
    (∀ k ∈ ["a", "b"], dictLookup [("p.a", "2|T"), ("p.b", "2|T")] ("p." ++ k) =
      some (PyVal.pyStr (.int 2) ++ "|" ++ "T")) :=
  format_list_spec ["a", "b"] (.int 2) "T" "p." _ rfl

/-- Claim C3: for a non-empty mapping and 0 < rate < 1, sample consumes
exactly one random draw for the whole call; if that draw is at most the
rate it returns the mapping with every value suffixed by the rate's
textual form, otherwise the empty mapping — one shared decision. -/
theorem sample_mid_rate (data : Dict) (rate : ℚ) (r : RandSrc)
    (hnd : (dictKeys data).Nodup) (_hne : data ≠ [])
    (_h0 : 0 < rate) (h1 : rate < 1) :
    (StatsdClient.sample data rate r).2 = ⟨r.vals, r.idx + 1⟩ ∧
    (r.vals r.idx ≤ rate →
      (StatsdClient.sample data rate r).1
        = data.map (fun kv => (kv.1, kv.2 ++ "|@" ++ ratRepr rate))) ∧
    (rate < r.vals r.idx → (StatsdClient.sample data rate r).1 = []) := by
  have hlt : ¬ rate ≥ 1 := not_le.mpr h1
  unfold StatsdClient.sample
  rw [if_neg hlt]
  simp only [randNext]
  by_cases hd : r.vals r.idx ≤ rate
  · rw [if_pos hd]
    refine ⟨rfl, fun _ => ?_, fun hgt => absurd hd (not_le.mpr hgt)⟩
    simpa using foldl_dictInsert_map _ data [] (by simpa using hnd)
  · rw [if_neg hd]
    exact ⟨rfl, fun hle => absurd hle hd, fun _ => rfl⟩

/-- Witness for C3 at a concrete input (draw 0 ≤ rate 1/2: kept). -/
theorem sample_mid_rate_witness :
    (StatsdClient.sample [("k", "v")] qHalf ⟨fun _ => 0, 0⟩).2 = ⟨fun _ => 0, 1⟩ ∧
    ((0 : ℚ) ≤ qHalf →
      (StatsdClient.sample [("k", "v")] qHalf ⟨fun _ => 0, 0⟩).1
        = [("k", "v" ++ "|@" ++ ratRepr qHalf)]) ∧
    (qHalf < 0 →
      (StatsdClient.sample [("k", "v")] qHalf ⟨fun _ => 0, 0⟩).1 = []) :=
  sample_mid_rate [("k", "v")] qHalf ⟨fun _ => 0, 0⟩
    (by decide) (by decide) (by decide) (by decide)

/-- Claim C4 counterexample: at rate 0 with the (possible) draw 0.0 from
random(), sample returns the data suffixed with "|@0", not the empty
mapping the claim promises for every rate ≤ 0 and every draw. -/
theorem sample_nonpos_rate_cex :
    (StatsdClient.sample [("k", "v")] 0 ⟨fun _ => 0, 0⟩).1 = [("k", "v|@0")] ∧
    (StatsdClient.sample [("k", "v")] 0 ⟨fun _ => 0, 0⟩).1 ≠ [] := by
  constructor <;> decide

/-- Claim C4 as amended: for rate ≤ 0 and a non-negative draw, sample
returns the empty mapping (and, being a total function, does not crash)
unless the draw is exactly 0 with rate exactly 0 — the single point of
[0,1) where the source's `random() <= sample_rate` test still passes. -/
theorem sample_nonpos_rate (data : Dict) (rate : ℚ) (r : RandSrc)
    (hr : rate ≤ 0) (hd0 : 0 ≤ r.vals r.idx)
    (hne : ¬ (r.vals r.idx = 0 ∧ rate = 0)) :
    (StatsdClient.sample data rate r).1 = [] := by
  have h1 : ¬ rate ≥ 1 := not_le.mpr (lt_of_le_of_lt hr one_pos)
  have hgt : ¬ r.vals r.idx ≤ rate := by
    intro hle
    have hdz : r.vals r.idx = 0 := le_antisymm (hle.trans hr) hd0
    have hrz : rate = 0 := le_antisymm hr (hdz ▸ hle)
    exact hne ⟨hdz, hrz⟩
  unfold StatsdClient.sample
  rw [if_neg h1]
  simp only [randNext]
  rw [if_neg hgt]

/-- Witness for the amended C4 at a concrete input (rate 0, draw 1/2). -/
theorem sample_nonpos_rate_witness :
    (StatsdClient.sample [("k", "v")] 0 ⟨fun _ => qHalf, 0⟩).1 = [] :=
  sample_nonpos_rate [("k", "v")] 0 ⟨fun _ => qHalf, 0⟩
    (by decide) (by decide) (by decide)

/-- Claim C5: for every mapping and every rate ≥ 1, sample is the
identity: same mapping back, no suffix touched, no draw consumed. -/
theorem sample_rate_ge_one_id (data : Dict) (rate : ℚ) (r : RandSrc)
    (h : rate ≥ 1) : StatsdClient.sample data rate r = (data, r) := by
  unfold StatsdClient.sample
  exact if_pos h

/-- Witness for C5 at a concrete input. -/
theorem sample_rate_ge_one_id_witness :
    StatsdClient.sample [("k", "v")] 1 ⟨fun _ => 0, 0⟩ =
      ([("k", "v")], ⟨fun _ => 0, 0⟩) :=
  sample_rate_ge_one_id [("k", "v")] 1 ⟨fun _ => 0, 0⟩ (le_refl 1)

/-- Claim C6: send transmits one UDP datagram per pair, in order, the
payload of each being "{key}:{value}"; the number of datagrams equals the
number of pairs. -/
theorem send_one_datagram_per_pair (d : Dict) (addr : String × Nat) :
    StatsdClient.send d addr
      = d.map (fun kv => { addr := addr, payload := kv.1 ++ ":" ++ kv.2 }) ∧
    (StatsdClient.send d addr).length = d.length := by
  refine ⟨rfl, ?_⟩
  unfold StatsdClient.send
  exact List.length_map _ _

/-- Claim C7: increment is count with value 1 and decrement is count with
value -1, for every client, keys argument, sample rate and random state —
they produce identical observable behaviour (same result, same datagrams,
same random-source consumption). -/
theorem increment_decrement_are_count (c : StatsdClient) (stats : PyKeys)
    (rate : ℚ) (r : RandSrc) :
    c.increment stats rate r = c.count stats (.int 1) rate r ∧
    c.decrement stats rate r = c.count stats (.int (-1)) rate r :=
  ⟨rfl, rfl⟩

/-- Claim C8: timeit invokes the function once, records the wall-clock
duration (second clock reading minus first) times 1000 as a timing metric
via timing, and returns the function's result unchanged; if the function
raises, the error propagates unchanged (and nothing is timed or sent). -/
theorem timeit_times_and_propagates {σ α : Type} (c : StatsdClient)
    (metric : PyKeys) (f : σ → Except PyError (α × σ)) (s : σ)
    (t : TimeSrc) (r : RandSrc) :
    (∀ a s', f s = .ok (a, s') →
      StatsdClient.timeit c metric f s t r =
        match StatsdClient.timing c metric
            (.rat ((t.vals (t.idx + 1) - t.vals t.idx) * 1000)) r with
        | .ok (dgs, r') => .ok (a, dgs, s', ⟨t.vals, t.idx + 2⟩, r')
        | .error e => .error e) ∧
    (∀ e, f s = .error e → StatsdClient.timeit c metric f s t r = .error e) := by
  constructor
  · intro a s' hf
    unfold StatsdClient.timeit timeitFn
    simp only [timeNext, hf]
  · intro e hf
    unfold StatsdClient.timeit timeitFn
    simp only [timeNext, hf]

/-- Witness for C8: a function that returns (applied to the state 5) and
one that raises, under a constant clock. -/
theorem timeit_times_and_propagates_witness :
    (StatsdClient.timeit (StatsdClient.init "h" 1 "") (.str "m")
        (fun n => .ok (n + 1, n)) 5 ⟨fun _ => 0, 0⟩ ⟨fun _ => 0, 0⟩ =
      match StatsdClient.timing (StatsdClient.init "h" 1 "") (.str "m")
          (.rat ((0 - 0) * 1000)) ⟨fun _ => 0, 0⟩ with
      | .ok (dgs, r') => .ok (6, dgs, 5, ⟨fun _ => 0, 2⟩, r')
      | .error e => .error e) ∧
    StatsdClient.timeit (StatsdClient.init "h" 1 "") (.str "m")
        (fun _ => (.error .typeError : Except PyError (Nat × Nat))) 5
        ⟨fun _ => 0, 0⟩ ⟨fun _ => 0, 0⟩ =
      .error .typeError :=
  ⟨(timeit_times_and_propagates (StatsdClient.init "h" 1 "") (.str "m")
      (fun n => .ok (n + 1, n)) 5 ⟨fun _ => 0, 0⟩ ⟨fun _ => 0, 0⟩).1 6 5 rfl,
   (timeit_times_and_propagates (StatsdClient.init "h" 1 "") (.str "m")
      (fun _ => (.error .typeError : Except PyError (Nat × Nat))) 5
      ⟨fun _ => 0, 0⟩ ⟨fun _ => 0, 0⟩).2 .typeError rfl⟩

/-- Claim C9: before any configure call (the import-time state) and after
resetclient, the facade's client is the NullClient; with it, count, timing
and gauge succeed without raising and send nothing, and timeit still
invokes the wrapped function exactly once and returns its result unchanged
(propagating its error if it raises), sending nothing and touching neither
the clock nor the random source. -/
theorem null_facade_noop :
    metrics.initialClient = MClient.null ∧
    metrics.resetclient = MClient.null ∧
    (∀ (metric : PyKeys) (value : PyVal) (rate : ℚ) (r : RandSrc),
      metrics.count MClient.null metric value rate r = .ok ([], r)) ∧
    (∀ (metric : PyKeys) (value : PyVal) (r : RandSrc),
      metrics.timing MClient.null metric value r = .ok ([], r)) ∧
    (∀ (metric : PyKeys) (value : PyVal) (r : RandSrc),
      metrics.gauge MClient.null metric value r = .ok ([], r)) ∧
    (∀ (σ α : Type) (metric : PyKeys) (f : σ → Except PyError (α × σ))
      (s : σ) (t : TimeSrc) (r : RandSrc),
      metrics.timeitF MClient.null metric f s t r =
        match f s with
        | .ok (a, s') => .ok (a, [], s', t, r)
        | .error e => .error e) :=
  ⟨rfl, rfl, fun _ _ _ _ => rfl, fun _ _ _ => rfl, fun _ _ _ => rfl,
   fun _ _ _ _ _ _ _ => rfl⟩

/-- Claim C10: format treats its keys argument as a sequence only when it
is a list or a tuple; a string s is one single key — the result is the
single entry pfx ++ s, never one entry per character — while another
iterable such as a set is not normalized into a sequence of keys: it is
wrapped whole as the one "key" and the prefix concatenation raises
TypeError. -/
theorem format_string_is_single_key (s : String) (v : PyVal) (ty pfx : String)
    (ks : List String) :
    StatsdClient.format (.str s) v ty pfx =
      .ok [(pfx ++ s, PyVal.pyStr v ++ "|" ++ ty)] ∧
    StatsdClient.format (.setv ks) v ty pfx = .error .typeError := by
  constructor
  · simp [StatsdClient.format, dictInsert, dictKeys]
  · rfl
